import Mathlib

/-!
Verification of the AMI430 magnet power-supply driver
(`qcodes/instrument_drivers/american_magnetics/AMI430.py`).

The driver is shallowly embedded: the hardware is modelled as a record of
the three writable flags (quenched, persistent mode, heater enabled)
together with an eventually-constant stream of responses to successive
`STATE?` queries (`pre` holds the next responses, `finalState` repeats
forever afterwards).  Driver methods become functions from this hardware
model to the list of write commands they issue plus the resulting model;
`Option` is used where a polling loop would spin forever (`none` = the
loop never exits within the modelled trace, i.e. the call diverges).
Field values are modelled as rationals.
-/

namespace AMI430

/-- The ten hardware ramping states returned by `STATE?`
(`ramping_state` val_mapping in the driver). -/
inductive RampState where
  | ramping
  | holding
  | paused
  | manualUp
  | manualDown
  | zeroingCurrent
  | quenchDetected
  | atZeroCurrent
  | heatingSwitch
  | coolingSwitch
deriving DecidableEq, Repr

instance : Fintype RampState :=
  ⟨⟨[RampState.ramping, RampState.holding, RampState.paused, RampState.manualUp,
     RampState.manualDown, RampState.zeroingCurrent, RampState.quenchDetected,
     RampState.atZeroCurrent, RampState.heatingSwitch, RampState.coolingSwitch], by decide⟩,
   by intro x; cases x <;> decide⟩

/-- Pure form of `AMI430._can_start_ramping`, as a function of the
persistent-switch configuration and the four facts the method reads
(quench flag, persistent-mode flag, heater-enabled flag, ramping state).
Mirrors the source line by line. -/
def can_start_ramping (psw q pm he : Bool) (st : RampState) : Bool :=
  if q then false
  else if psw && pm then false
  else
    if st = RampState.ramping then
      if !psw then true
      else if he then true
      else false
    else if st = RampState.holding || st = RampState.paused
         || st = RampState.atZeroCurrent then true
    else false

/-- The decision table stated by the specification (§4.1), written from the
spec's words, to be compared with the source function. -/
def gateDecisionTable (psw q pm he : Bool) (st : RampState) : Bool :=
  if q then false
  else if psw && pm then false
  else if st = RampState.ramping then (!psw || he)
  else if st = RampState.holding || st = RampState.paused
       || st = RampState.atZeroCurrent then true
  else false

/-- The four hardware queries `_can_start_ramping` may issue:
`QU?`, `PERS?`, `STATE?`, `PS?`. -/
inductive Query where
  | qu
  | pers
  | stateQ
  | ps
deriving DecidableEq, Repr

/-- Embedding of `AMI430._can_start_ramping` with its hardware reads made explicit:
returns the decision together with the list of queries issued, in order.
`QU?` is always read first; `PERS?` is read only when a persistent switch
is configured (Python `and` short-circuits); `STATE?` is read unless an
early return fired; `PS?` is read only in the `ramping` branch when a
persistent switch is configured. -/
def can_start_ramping_reads (psw q pm he : Bool) (st : RampState) :
    Bool × List Query :=
  if q then (false, [Query.qu])
  else
    let persReads : List Query := if psw then [Query.pers] else []
    if psw && pm then (false, Query.qu :: persReads)
    else
      let rs : List Query := Query.qu :: persReads ++ [Query.stateQ]
      if st = RampState.ramping then
        if !psw then (true, rs)
        else if he then (true, rs ++ [Query.ps])
        else (false, rs ++ [Query.ps])
      else if st = RampState.holding || st = RampState.paused
           || st = RampState.atZeroCurrent then (true, rs)
      else (false, rs)

/-- C1: `_can_start_ramping` is a pure function of the snapshot plus the
persistent-switch configuration and agrees with the specification's
decision table (§4.1) on every input, and the explicit-reads version
computes the same decision. -/
theorem can_start_ramping_matches_table :
    (∀ psw q pm he st, can_start_ramping psw q pm he st = gateDecisionTable psw q pm he st)
    ∧ (∀ psw q pm he st,
        (can_start_ramping_reads psw q pm he st).1 = can_start_ramping psw q pm he st) := by
  constructor <;> (intro psw q pm he st) <;>
    (cases psw <;> cases q <;> cases pm <;> cases he <;> cases st <;> rfl)

/-- C10: the safety gate short-circuits its hardware reads.  When the
quench flag reads true it answers false after the single `QU?` read; when
no persistent switch is configured it never issues `PERS?` or `PS?`, and
its decision then depends only on the quench flag and the ramp state. -/
theorem can_start_ramping_short_circuits :
    (∀ psw pm he st, can_start_ramping_reads psw true pm he st = (false, [Query.qu]))
    ∧ (∀ q pm he st, Query.pers ∉ (can_start_ramping_reads false q pm he st).2
        ∧ Query.ps ∉ (can_start_ramping_reads false q pm he st).2)
    ∧ (∀ q pm he pm2 he2 st,
        (can_start_ramping_reads false q pm he st).1
          = (can_start_ramping_reads false q pm2 he2 st).1) := by
  refine ⟨?_, ?_, ?_⟩
  · intro psw pm he st; cases psw <;> rfl
  · intro q pm he st; cases q <;> cases pm <;> cases he <;> cases st <;> exact ⟨by decide, by decide⟩
  · intro q pm he pm2 he2 st
    cases q <;> cases pm <;> cases he <;> cases pm2 <;> cases he2 <;> cases st <;> rfl

/-- Hardware model: the three writable instrument flags plus an
eventually-constant stream of `STATE?` responses (`pre` is consumed one
element per read, then `finalState` is reported forever). -/
structure Magnet where
  quenched : Bool
  persistentMode : Bool
  heaterEnabled : Bool
  pre : List RampState
  finalState : RampState
deriving DecidableEq, Repr

/-- One `STATE?` read: the next scripted response, and the hardware with
that response consumed. -/
def readState (m : Magnet) : RampState × Magnet :=
  match m.pre with
  | [] => (m.finalState, m)
  | s :: rest => (s, { m with pre := rest })

/-- The write commands the driver can issue: `PAUSE`,
`CONF:FIELD:TARG <v>`, `PS 1` / `PS 0`, `RAMP`. -/
inductive Cmd where
  | pause
  | confFieldTarg (v : ℚ)
  | ps (b : Bool)
  | ramp
deriving DecidableEq, Repr

/-- A `while ramping_state() == s: sleep` loop run against the scripted
responses: returns the script remaining after the first response different
from `s` has been consumed, or `none` when every response equals `s`
forever (the loop never exits). -/
def runPoll (tgt fin : RampState) : List RampState → Option (List RampState)
  | [] => if fin = tgt then none else some []
  | s :: rest => if s = tgt then runPoll tgt fin rest else some rest

/-- The polling loop lifted to the hardware model. -/
def waitWhileEq (tgt : RampState) (m : Magnet) : Option Magnet :=
  (runPoll tgt m.finalState m.pre).map (fun rest => { m with pre := rest })

/-- Embedding of `AMI430._set_persistent_switch_heater`: writes `PS 1` (resp. `PS 0`),
then polls `STATE?` until it is no longer `heating switch` (resp.
`cooling switch`).  Returns the commands written and the final hardware;
`none` when the wait loop never exits. -/
def set_persistent_switch_heater (value : Bool) (m : Magnet) :
    Option (List Cmd × Magnet) :=
  if value then
    (waitWhileEq RampState.heatingSwitch { m with heaterEnabled := true }).map
      (fun m2 => ([Cmd.ps true], m2))
  else
    (waitWhileEq RampState.coolingSwitch { m with heaterEnabled := false }).map
      (fun m2 => ([Cmd.ps false], m2))

/-- Embedding of `AMI430._can_start_ramping` run against the hardware model: same logic
as `can_start_ramping` but the `STATE?` read consumes a scripted
response. -/
def canStartRampingM (psw : Bool) (m : Magnet) : Bool × Magnet :=
  if m.quenched then (false, m)
  else if psw && m.persistentMode then (false, m)
  else
    let r := readState m
    if r.1 = RampState.ramping then
      if !psw then (true, r.2)
      else if r.2.heaterEnabled then (true, r.2)
      else (false, r.2)
    else if r.1 = RampState.holding || r.1 = RampState.paused
         || r.1 = RampState.atZeroCurrent then (true, r.2)
    else (false, r.2)

/-- Outcome of the blocking ramp `_set_field`. -/
inductive Outcome where
  | noop
  | success
  | endedAbnormally (st : RampState)
deriving DecidableEq, Repr

/-- Embedding of `AMI430._ramp_to` (non-blocking ramp): if the safety gate allows,
issues `PAUSE`, `CONF:FIELD:TARG value`, the heater-enable sequence when a
persistent switch is present and the heater reads disabled, then `RAMP`,
and returns; otherwise does nothing.  `none` when the heater wait never
exits. -/
def ramp_to (psw : Bool) (value : ℚ) (m : Magnet) :
    Option (List Cmd × Magnet) :=
  let g := canStartRampingM psw m
  if g.1 then
    let hs : Option (List Cmd × Magnet) :=
      if psw then
        if !g.2.heaterEnabled then set_persistent_switch_heater true g.2
        else some ([], g.2)
      else some ([], g.2)
    match hs with
    | none => none
    | some hm =>
        some (Cmd.pause :: Cmd.confFieldTarg value :: (hm.1 ++ [Cmd.ramp]), hm.2)
  else
    some ([], g.2)

/-- Embedding of `AMI430._set_field` (blocking ramp): same command sequence as
`_ramp_to` up to and including `RAMP`, then polls `STATE?` while it reads
`ramping`, re-reads the state once, and issues `PAUSE` exactly when that
re-read state is `holding` (otherwise the ramp ended abnormally and the
final state is reported).  `none` when a wait loop never exits. -/
def set_field (psw : Bool) (value : ℚ) (m : Magnet) :
    Option (List Cmd × Outcome × Magnet) :=
  let g := canStartRampingM psw m
  if g.1 then
    let hs : Option (List Cmd × Magnet) :=
      if psw then
        if !g.2.heaterEnabled then set_persistent_switch_heater true g.2
        else some ([], g.2)
      else some ([], g.2)
    match hs with
    | none => none
    | some hm =>
      match waitWhileEq RampState.ramping hm.2 with
      | none => none
      | some m3 =>
        let r := readState m3
        if r.1 = RampState.holding then
          some (Cmd.pause :: Cmd.confFieldTarg value :: (hm.1 ++ [Cmd.ramp, Cmd.pause]),
                Outcome.success, r.2)
        else
          some (Cmd.pause :: Cmd.confFieldTarg value :: (hm.1 ++ [Cmd.ramp]),
                Outcome.endedAbnormally r.1, r.2)
  else
    some ([], Outcome.noop, g.2)

/-- The heater-ensure step shared verbatim by `_set_field` and `_ramp_to`:
read the heater flag and call the heater sequencer only when it reads
disabled. -/
def ensure_heater_enabled (psw : Bool) (m : Magnet) :
    Option (List Cmd × Magnet) :=
  if psw then
    if !m.heaterEnabled then set_persistent_switch_heater true m
    else some ([], m)
  else some ([], m)

/-- The transition state the heater sequencer waits out: `heating switch`
when enabling, `cooling switch` when disabling. -/
def transitionState (value : Bool) : RampState :=
  if value then RampState.heatingSwitch else RampState.coolingSwitch

lemma readState_snd_pre (m : Magnet) :
    (readState m).2.quenched = m.quenched
    ∧ (readState m).2.persistentMode = m.persistentMode
    ∧ (readState m).2.heaterEnabled = m.heaterEnabled := by
  cases h : m.pre <;> simp [readState, h]

lemma canStartRampingM_snd (psw : Bool) (m : Magnet) :
    (canStartRampingM psw m).2 = m ∨ (canStartRampingM psw m).2 = (readState m).2 := by
  unfold canStartRampingM
  by_cases h1 : m.quenched = true
  · left; rw [if_pos h1]
  · by_cases h2 : (psw && m.persistentMode) = true
    · left; rw [if_neg h1, if_pos h2]
    · right
      rw [if_neg h1, if_neg h2]
      dsimp only
      split_ifs <;> rfl

lemma canStartRampingM_flags (psw : Bool) (m : Magnet) :
    (canStartRampingM psw m).2.quenched = m.quenched
    ∧ (canStartRampingM psw m).2.persistentMode = m.persistentMode
    ∧ (canStartRampingM psw m).2.heaterEnabled = m.heaterEnabled := by
  rcases canStartRampingM_snd psw m with h | h <;> rw [h]
  · exact ⟨rfl, rfl, rfl⟩
  · exact readState_snd_pre m

lemma waitWhileEq_flags {tgt : RampState} {m m2 : Magnet}
    (h : waitWhileEq tgt m = some m2) :
    m2.quenched = m.quenched ∧ m2.persistentMode = m.persistentMode
    ∧ m2.heaterEnabled = m.heaterEnabled := by
  unfold waitWhileEq at h
  cases hr : runPoll tgt m.finalState m.pre with
  | none => rw [hr] at h; simp at h
  | some rest => rw [hr] at h; simp at h; rw [← h]; exact ⟨rfl, rfl, rfl⟩

lemma runPoll_none_iff (tgt fin : RampState) (l : List RampState) :
    runPoll tgt fin l = none ↔ (∀ s ∈ l, s = tgt) ∧ fin = tgt := by
  induction l with
  | nil => simp only [runPoll]; split_ifs with h <;> simp [h]
  | cons s rest ih =>
      simp only [runPoll]
      split_ifs with h <;> simp [h, ih]

/-- C2: whenever the safety gate evaluates to false, both `_set_field`
(blocking) and `_ramp_to` (non-blocking) issue zero write commands,
return without error, and leave the writable hardware flags unchanged. -/
theorem blocked_ramp_no_writes (psw : Bool) (v : ℚ) (m : Magnet)
    (h : (canStartRampingM psw m).1 = false) :
    set_field psw v m = some ([], Outcome.noop, (canStartRampingM psw m).2)
    ∧ ramp_to psw v m = some ([], (canStartRampingM psw m).2)
    ∧ (canStartRampingM psw m).2.quenched = m.quenched
    ∧ (canStartRampingM psw m).2.persistentMode = m.persistentMode
    ∧ (canStartRampingM psw m).2.heaterEnabled = m.heaterEnabled := by
  refine ⟨?_, ?_, canStartRampingM_flags psw m⟩
  · unfold set_field
    simp [h]
  · unfold ramp_to
    simp [h]

/-- A quenched magnet with no further scripted activity. -/
def mQuenched : Magnet :=
  ⟨true, false, false, [], RampState.holding⟩

/-- Concrete instance of C2 at a quenched magnet (Scenario C). -/
theorem blocked_ramp_no_writes_witness :
    set_field false 1 mQuenched = some ([], Outcome.noop, (canStartRampingM false mQuenched).2)
    ∧ ramp_to false 1 mQuenched = some ([], (canStartRampingM false mQuenched).2)
    ∧ (canStartRampingM false mQuenched).2.quenched = mQuenched.quenched
    ∧ (canStartRampingM false mQuenched).2.persistentMode = mQuenched.persistentMode
    ∧ (canStartRampingM false mQuenched).2.heaterEnabled = mQuenched.heaterEnabled :=
  blocked_ramp_no_writes false 1 mQuenched (by decide)

/-- C7: the heater sequencer issues exactly one heater command per call,
and (over the eventually-constant state traces of the model) terminates
precisely when some observed ramp state differs from the corresponding
transition state; on a trace reporting the transition state forever it
never returns. -/
theorem set_persistent_switch_heater_behavior (value : Bool) (m : Magnet) :
    (∀ cmds m2, set_persistent_switch_heater value m = some (cmds, m2) →
      cmds = [Cmd.ps value])
    ∧ (set_persistent_switch_heater value m = none ↔
        ((∀ s ∈ m.pre, s = transitionState value)
          ∧ m.finalState = transitionState value)) := by
  cases value with
  | false =>
      refine ⟨?_, ?_⟩
      · intro cmds m2 h
        unfold set_persistent_switch_heater at h
        simp only [Bool.false_eq_true, reduceIte, Option.map_eq_some'] at h
        obtain ⟨a, ha, hb⟩ := h
        exact (congrArg Prod.fst hb).symm
      · unfold set_persistent_switch_heater
        simp [waitWhileEq, Option.map_eq_none', runPoll_none_iff, transitionState]
  | true =>
      refine ⟨?_, ?_⟩
      · intro cmds m2 h
        unfold set_persistent_switch_heater at h
        simp only [reduceIte, Option.map_eq_some'] at h
        obtain ⟨a, ha, hb⟩ := h
        exact (congrArg Prod.fst hb).symm
      · unfold set_persistent_switch_heater
        simp [waitWhileEq, Option.map_eq_none', runPoll_none_iff, transitionState]

/-- A heater-off magnet whose script finishes the heating transition. -/
def mHeating : Magnet :=
  ⟨false, false, false, [RampState.heatingSwitch, RampState.paused], RampState.paused⟩

/-- A magnet stuck reporting `heating switch` forever. -/
def mStuckHeating : Magnet :=
  ⟨false, false, false, [], RampState.heatingSwitch⟩

/-- Concrete instance of C7: one completed heater enable issues exactly
`PS 1`, and a forever-heating trace never returns. -/
theorem set_persistent_switch_heater_behavior_witness :
    [Cmd.ps true] = [Cmd.ps true]
    ∧ set_persistent_switch_heater true mStuckHeating = none :=
  ⟨(set_persistent_switch_heater_behavior true mHeating).1 [Cmd.ps true]
      ⟨false, false, true, [], RampState.paused⟩ (by decide),
   (set_persistent_switch_heater_behavior true mStuckHeating).2.mpr (by decide)⟩

/-- A magnet whose heater is already enabled, idle (`paused`), as left by
a completed heater enable. -/
def mHeaterOn : Magnet :=
  ⟨false, false, true, [], RampState.paused⟩

/-- A heater-off idle magnet. -/
def mHeaterOff : Magnet :=
  ⟨false, false, false, [], RampState.paused⟩

/-- C8 counterexample: the raw heater sequencer is not a no-op on a second
consecutive call.  Calling `setHeater(true)` twice in a row (no
intervening hardware change) issues the `PS 1` write both times, so the
second call is not a no-op as the claim states. -/
theorem set_heater_second_call_not_noop :
    set_persistent_switch_heater true mHeaterOff = some ([Cmd.ps true], mHeaterOn)
    ∧ mHeaterOn.heaterEnabled = true
    ∧ set_persistent_switch_heater true mHeaterOn = some ([Cmd.ps true], mHeaterOn)
    ∧ [Cmd.ps true] ≠ ([] : List Cmd) := by
  decide

/-- C8 amended: the idempotence holds of the guarded heater-ensure step
that `_set_field`/`_ramp_to` actually run: once the heater reads enabled
it issues zero commands and performs no wait, and after any completed
`setHeater(true)` the heater reads enabled, so the following ensure step
is a no-op.  The raw `setHeater(true)` itself re-issues `PS 1` on every
call. -/
theorem ensure_heater_idempotent (psw : Bool) (m : Magnet) :
    (m.heaterEnabled = true → ensure_heater_enabled psw m = some ([], m))
    ∧ (∀ cmds m2, set_persistent_switch_heater true m = some (cmds, m2) →
        m2.heaterEnabled = true ∧ ensure_heater_enabled psw m2 = some ([], m2)) := by
  constructor
  · intro h
    unfold ensure_heater_enabled
    cases psw <;> simp [h]
  · intro cmds m2 h
    unfold set_persistent_switch_heater at h
    simp only [if_true, reduceIte] at h
    cases hw : waitWhileEq RampState.heatingSwitch { m with heaterEnabled := true } with
    | none => rw [hw] at h; simp at h
    | some m2x =>
        rw [hw] at h
        simp at h
        have hflags := waitWhileEq_flags hw
        have hhe : m2.heaterEnabled = true := by
          rw [← h.2]; exact hflags.2.2
        refine ⟨hhe, ?_⟩
        unfold ensure_heater_enabled
        cases psw <;> simp [hhe]

/-- Concrete instance of the amended C8: with the heater already enabled,
the guarded ensure step issues zero commands and leaves the hardware
untouched. -/
theorem ensure_heater_idempotent_witness :
    ensure_heater_enabled true mHeaterOn = some ([], mHeaterOn) :=
  (ensure_heater_idempotent true mHeaterOn).1 (by decide)

lemma set_heater_some {value : Bool} {m : Magnet} {p : List Cmd × Magnet}
    (h : set_persistent_switch_heater value m = some p) :
    p.1 = [Cmd.ps value] ∧ p.2.quenched = m.quenched
    ∧ p.2.persistentMode = m.persistentMode ∧ p.2.heaterEnabled = value := by
  unfold set_persistent_switch_heater at h
  cases value with
  | true =>
      simp only [reduceIte, Option.map_eq_some'] at h
      obtain ⟨a, ha, hb⟩ := h
      have hf := waitWhileEq_flags ha
      rw [← hb]
      exact ⟨rfl, hf.1, hf.2.1, hf.2.2⟩
  | false =>
      simp only [Bool.false_eq_true, reduceIte, Option.map_eq_some'] at h
      obtain ⟨a, ha, hb⟩ := h
      have hf := waitWhileEq_flags ha
      rw [← hb]
      exact ⟨rfl, hf.1, hf.2.1, hf.2.2⟩

lemma ensure_heater_some {psw : Bool} {m : Magnet} {p : List Cmd × Magnet}
    (h : ensure_heater_enabled psw m = some p) :
    p.1 = (if psw && !m.heaterEnabled then [Cmd.ps true] else []) := by
  unfold ensure_heater_enabled at h
  cases psw with
  | false =>
      simp only [Bool.false_eq_true, reduceIte, Option.some.injEq] at h
      rw [← h]
      simp
  | true =>
      cases hhe : m.heaterEnabled with
      | true =>
          rw [hhe] at h
          simp only [Bool.not_true, Bool.false_eq_true, reduceIte, Option.some.injEq] at h
          rw [← h]
          simp
      | false =>
          rw [hhe] at h
          simp only [Bool.not_false, reduceIte] at h
          rw [(set_heater_some h).1]
          simp

lemma ramp_to_unfold (psw : Bool) (v : ℚ) (m : Magnet) :
    ramp_to psw v m =
      if (canStartRampingM psw m).1 then
        match ensure_heater_enabled psw (canStartRampingM psw m).2 with
        | none => none
        | some hm =>
            some (Cmd.pause :: Cmd.confFieldTarg v :: (hm.1 ++ [Cmd.ramp]), hm.2)
      else some ([], (canStartRampingM psw m).2) := rfl

lemma set_field_unfold (psw : Bool) (v : ℚ) (m : Magnet) :
    set_field psw v m =
      if (canStartRampingM psw m).1 then
        match ensure_heater_enabled psw (canStartRampingM psw m).2 with
        | none => none
        | some hm =>
          match waitWhileEq RampState.ramping hm.2 with
          | none => none
          | some m3 =>
            if (readState m3).1 = RampState.holding then
              some (Cmd.pause :: Cmd.confFieldTarg v :: (hm.1 ++ [Cmd.ramp, Cmd.pause]),
                    Outcome.success, (readState m3).2)
            else
              some (Cmd.pause :: Cmd.confFieldTarg v :: (hm.1 ++ [Cmd.ramp]),
                    Outcome.endedAbnormally (readState m3).1, (readState m3).2)
      else some ([], Outcome.noop, (canStartRampingM psw m).2) := rfl

/-- C3: whenever the safety gate allows ramping, the write commands issued
before any monitoring are exactly `PAUSE`, then `CONF:FIELD:TARG value`,
then the heater-enable command exactly when a persistent switch is present
and the heater reads disabled, then `RAMP`, in that order with nothing
interleaved (for `_set_field` the monitor may append one final `PAUSE`
after `RAMP`; `none` marks a wait loop that never exits). -/
theorem beginRamp_command_order (psw : Bool) (v : ℚ) (m : Magnet)
    (h : (canStartRampingM psw m).1 = true) :
    (ramp_to psw v m = none
      ∨ ∃ m2, ramp_to psw v m
          = some (Cmd.pause :: Cmd.confFieldTarg v ::
              ((if psw && !m.heaterEnabled then [Cmd.ps true] else []) ++ [Cmd.ramp]), m2))
    ∧ (set_field psw v m = none
      ∨ ∃ (res : Outcome × Magnet) (tl : List Cmd), set_field psw v m
          = some (Cmd.pause :: Cmd.confFieldTarg v ::
              ((if psw && !m.heaterEnabled then [Cmd.ps true] else [])
                ++ [Cmd.ramp] ++ tl), res.1, res.2)
          ∧ (tl = ([] : List Cmd) ∨ tl = [Cmd.pause])) := by
  have hfl : (canStartRampingM psw m).2.heaterEnabled = m.heaterEnabled :=
    (canStartRampingM_flags psw m).2.2
  constructor
  · rw [ramp_to_unfold, if_pos h]
    cases hh : ensure_heater_enabled psw (canStartRampingM psw m).2 with
    | none => exact Or.inl rfl
    | some hm =>
        right
        refine ⟨hm.2, ?_⟩
        have hc := ensure_heater_some hh
        rw [hfl] at hc
        dsimp only
        rw [hc]
  · rw [set_field_unfold, if_pos h]
    cases hh : ensure_heater_enabled psw (canStartRampingM psw m).2 with
    | none => exact Or.inl rfl
    | some hm =>
        have hc := ensure_heater_some hh
        rw [hfl] at hc
        dsimp only
        cases hw : waitWhileEq RampState.ramping hm.2 with
        | none => exact Or.inl rfl
        | some m3 =>
            right
            dsimp only
            by_cases hhold : (readState m3).1 = RampState.holding
            · refine ⟨(Outcome.success, (readState m3).2), [Cmd.pause], ?_, Or.inr rfl⟩
              rw [if_pos hhold, hc]
              simp
            · refine ⟨(Outcome.endedAbnormally (readState m3).1, (readState m3).2),
                ([] : List Cmd), ?_, Or.inl rfl⟩
              rw [if_neg hhold, hc]
              simp

/-- Scenario B magnet: persistent switch present, heater disabled, state
`holding`, then a heating transition that completes. -/
def mScenB : Magnet :=
  ⟨false, false, false,
   [RampState.holding, RampState.heatingSwitch, RampState.paused], RampState.holding⟩

/-- Concrete instance of C3 at Scenario B. -/
theorem beginRamp_command_order_witness :
    (ramp_to true (2/5) mScenB = none
      ∨ ∃ m2, ramp_to true (2/5) mScenB
          = some (Cmd.pause :: Cmd.confFieldTarg (2/5) ::
              ((if true && !mScenB.heaterEnabled then [Cmd.ps true] else []) ++ [Cmd.ramp]), m2))
    ∧ (set_field true (2/5) mScenB = none
      ∨ ∃ (res : Outcome × Magnet) (tl : List Cmd), set_field true (2/5) mScenB
          = some (Cmd.pause :: Cmd.confFieldTarg (2/5) ::
              ((if true && !mScenB.heaterEnabled then [Cmd.ps true] else [])
                ++ [Cmd.ramp] ++ tl), res.1, res.2)
          ∧ (tl = ([] : List Cmd) ∨ tl = [Cmd.pause])) :=
  beginRamp_command_order true (2/5) mScenB (by decide)

/-- C4: `_set_field` and `_ramp_to` issue identical command sequences up
to and including `RAMP` and differ only afterwards: when the non-blocking
call diverges in the heater wait so does the blocking one, and when the
non-blocking call returns trace `tr`, the blocking call either diverges in
its monitor loop or returns `tr` itself or `tr` extended by the monitor's
single final `PAUSE`. -/
theorem set_field_ramp_to_agree (psw : Bool) (v : ℚ) (m : Magnet) :
    (ramp_to psw v m = none → set_field psw v m = none)
    ∧ (∀ tr m2, ramp_to psw v m = some (tr, m2) →
        set_field psw v m = none
        ∨ (∃ res : Outcome × Magnet, set_field psw v m = some (tr, res.1, res.2))
        ∨ (∃ res : Outcome × Magnet,
            set_field psw v m = some (tr ++ [Cmd.pause], res.1, res.2))) := by
  rw [ramp_to_unfold, set_field_unfold]
  by_cases hg : (canStartRampingM psw m).1 = true
  · rw [if_pos hg, if_pos hg]
    cases hh : ensure_heater_enabled psw (canStartRampingM psw m).2 with
    | none =>
        dsimp only
        exact ⟨fun _ => rfl, fun tr m2 htr => by simp at htr⟩
    | some hm =>
        dsimp only
        refine ⟨fun hc => by simp at hc, ?_⟩
        intro tr m2 htr
        simp only [Option.some.injEq, Prod.mk.injEq] at htr
        cases hw : waitWhileEq RampState.ramping hm.2 with
        | none => exact Or.inl rfl
        | some m3 =>
            dsimp only
            by_cases hhold : (readState m3).1 = RampState.holding
            · rw [if_pos hhold]
              refine Or.inr (Or.inr ⟨(Outcome.success, (readState m3).2), ?_⟩)
              rw [← htr.1]
              simp
            · rw [if_neg hhold]
              refine Or.inr (Or.inl ⟨(Outcome.endedAbnormally (readState m3).1,
                (readState m3).2), ?_⟩)
              rw [← htr.1]
  · rw [if_neg hg, if_neg hg]
    refine ⟨fun hc => by simp at hc, ?_⟩
    intro tr m2 htr
    simp only [Option.some.injEq, Prod.mk.injEq] at htr
    refine Or.inr (Or.inl ⟨(Outcome.noop, (canStartRampingM psw m).2), ?_⟩)
    rw [← htr.1]

/-- Concrete instance of C4 at a quenched magnet: the non-blocking call
writes nothing and the blocking call returns the same empty trace. -/
theorem set_field_ramp_to_agree_witness :
    set_field false 1 mQuenched = none
    ∨ (∃ res : Outcome × Magnet,
        set_field false 1 mQuenched = some (([] : List Cmd), res.1, res.2))
    ∨ (∃ res : Outcome × Magnet,
        set_field false 1 mQuenched = some (([] : List Cmd) ++ [Cmd.pause], res.1, res.2)) :=
  (set_field_ramp_to_agree false 1 mQuenched).2 [] (canStartRampingM false mQuenched).2 rfl

/-- Scenario D magnet: gate reads `holding`, then the monitor polls
`ramping, ramping, holding`, and every later read is `holding`. -/
def mScenD : Magnet :=
  ⟨false, false, false,
   [RampState.holding, RampState.ramping, RampState.ramping, RampState.holding],
   RampState.holding⟩

/-- Scenario E magnet: gate reads `holding`, then the monitor polls
`ramping, quench detected`, and every later read is `quench detected`. -/
def mScenE : Magnet :=
  ⟨false, false, false,
   [RampState.holding, RampState.ramping, RampState.quenchDetected],
   RampState.quenchDetected⟩

/-- C6: in blocking mode, once the monitor loop exits, a final `PAUSE` is
issued exactly when the re-read state is `holding` (reported as success);
otherwise the trace ends at `RAMP` and the non-holding final state is
reported as an outcome, not an error.  In particular, the poll sequence
`ramping, ramping, holding` ends in a pause and success (Scenario D), and
`ramping, quench detected` ends without a pause, reporting the quench
(Scenario E). -/
theorem set_field_monitor :
    (∀ (psw : Bool) (v : ℚ) (m : Magnet) (tr : List Cmd) (res : Outcome) (m4 : Magnet),
      (canStartRampingM psw m).1 = true →
      set_field psw v m = some (tr, res, m4) →
      ((res = Outcome.success ∧ ∃ t, tr = t ++ [Cmd.ramp, Cmd.pause])
        ∨ (∃ st, st ≠ RampState.holding ∧ res = Outcome.endedAbnormally st
            ∧ ∃ t, tr = t ++ [Cmd.ramp])))
    ∧ set_field false 1 mScenD
        = some ([Cmd.pause, Cmd.confFieldTarg 1, Cmd.ramp, Cmd.pause], Outcome.success,
            ⟨false, false, false, [], RampState.holding⟩)
    ∧ set_field false 1 mScenE
        = some ([Cmd.pause, Cmd.confFieldTarg 1, Cmd.ramp],
            Outcome.endedAbnormally RampState.quenchDetected,
            ⟨false, false, false, [], RampState.quenchDetected⟩) := by
  refine ⟨?_, rfl, rfl⟩
  intro psw v m tr res m4 hgate h
  rw [set_field_unfold, if_pos hgate] at h
  cases hh : ensure_heater_enabled psw (canStartRampingM psw m).2 with
  | none => rw [hh] at h; simp at h
  | some hm =>
      rw [hh] at h
      dsimp only at h
      cases hw : waitWhileEq RampState.ramping hm.2 with
      | none => rw [hw] at h; simp at h
      | some m3 =>
          rw [hw] at h
          dsimp only at h
          by_cases hhold : (readState m3).1 = RampState.holding
          · rw [if_pos hhold] at h
            simp only [Option.some.injEq, Prod.mk.injEq] at h
            left
            refine ⟨h.2.1.symm, Cmd.pause :: Cmd.confFieldTarg v :: hm.1, ?_⟩
            rw [← h.1]
            simp
          · rw [if_neg hhold] at h
            simp only [Option.some.injEq, Prod.mk.injEq] at h
            right
            refine ⟨(readState m3).1, hhold, h.2.1.symm,
              Cmd.pause :: Cmd.confFieldTarg v :: hm.1, ?_⟩
            rw [← h.1]
            simp

/-- Concrete instance of C6's general part at Scenario D. -/
theorem set_field_monitor_witness :
    (Outcome.success = Outcome.success
      ∧ ∃ t, [Cmd.pause, Cmd.confFieldTarg 1, Cmd.ramp, Cmd.pause] = t ++ [Cmd.ramp, Cmd.pause])
    ∨ (∃ st, st ≠ RampState.holding ∧ Outcome.success = Outcome.endedAbnormally st
        ∧ ∃ t, [Cmd.pause, Cmd.confFieldTarg 1, Cmd.ramp, Cmd.pause] = t ++ [Cmd.ramp]) :=
  set_field_monitor.1 false 1 mScenD
    [Cmd.pause, Cmd.confFieldTarg 1, Cmd.ramp, Cmd.pause] Outcome.success
    ⟨false, false, false, [], RampState.holding⟩ (by decide) rfl

/-- Immutable magnet configuration fixed at construction
(`AMI430.__init__`). -/
structure MagnetConfiguration where
  coilConstant : ℚ
  currentRating : ℚ
  currentRampLimit : ℚ
  persistentSwitchPresent : Bool
deriving DecidableEq, Repr

/-- Derived field rating: `coil_constant * current_rating`
(`self._field_rating` in `__init__`). -/
def field_rating (c : MagnetConfiguration) : ℚ :=
  c.coilConstant * c.currentRating

/-- Error taxonomy entry for rejected targets. -/
inductive RampError where
  | outOfRange
deriving DecidableEq, Repr

/-- Modelled from the spec: the qcodes parameter/function validation layer
(`Numbers(-self._field_rating, self._field_rating)` attached to the
`field` parameter and `ramp_to` function in `__init__`) is not among the
provided sources; per §4.3 step 1 it validates `|target| <= fieldRating`
before any hardware interaction and fails with `OutOfRange` otherwise.
Blocking entry point with that validation in front of `_set_field`. -/
def set_field_validated (c : MagnetConfiguration) (v : ℚ) (m : Magnet) :
    Except RampError (Option (List Cmd × Outcome × Magnet)) :=
  if -(field_rating c) ≤ v ∧ v ≤ field_rating c then
    Except.ok (set_field c.persistentSwitchPresent v m)
  else Except.error RampError.outOfRange

/-- Modelled from the spec: same validation layer in front of the
non-blocking `_ramp_to`. -/
def ramp_to_validated (c : MagnetConfiguration) (v : ℚ) (m : Magnet) :
    Except RampError (Option (List Cmd × Magnet)) :=
  if -(field_rating c) ≤ v ∧ v ≤ field_rating c then
    Except.ok (ramp_to c.persistentSwitchPresent v m)
  else Except.error RampError.outOfRange

/-- C5: a target with `|target| > fieldRating` is rejected with
`OutOfRange` by both entry points before any hardware interaction: the
error result carries no command trace and the hardware model is never
touched. -/
theorem out_of_range_rejected (c : MagnetConfiguration) (v : ℚ) (m : Magnet)
    (h : field_rating c < |v|) :
    set_field_validated c v m = Except.error RampError.outOfRange
    ∧ ramp_to_validated c v m = Except.error RampError.outOfRange := by
  have hnot : ¬(-(field_rating c) ≤ v ∧ v ≤ field_rating c) := by
    intro hc
    have habs : |v| ≤ field_rating c := abs_le.mpr ⟨by linarith [hc.1], hc.2⟩
    linarith
  constructor
  · unfold set_field_validated
    rw [if_neg hnot]
  · unfold ramp_to_validated
    rw [if_neg hnot]

/-- Scenario A configuration: field rating 1.0 T. -/
def cScenA : MagnetConfiguration :=
  ⟨1, 1, 1/10, true⟩

/-- Concrete instance of C5 at Scenario A: rating 1.0, target 1.5. -/
theorem out_of_range_rejected_witness :
    set_field_validated cScenA (3/2) mHeaterOff = Except.error RampError.outOfRange
    ∧ ramp_to_validated cScenA (3/2) mHeaterOff = Except.error RampError.outOfRange :=
  out_of_range_rejected cScenA (3/2) mHeaterOff
    (by
      have h1 : |(3/2 : ℚ)| = 3/2 := abs_of_pos (by norm_num)
      norm_num [field_rating, cScenA, h1])

/-- Decimal digit run to a natural number; `none` unless nonempty and all
digits. -/
def natOfDigits (cs : List Char) : Option ℕ :=
  if cs = [] then none
  else if cs.all Char.isDigit then
    some (cs.foldl (fun n c => 10 * n + (c.toNat - 48)) 0)
  else none

/-- Split a character list at its first dot, if any. -/
def splitOnDot : List Char → List Char × Option (List Char)
  | [] => ([], none)
  | c :: rest =>
      if c = '.' then ([], some rest)
      else
        let p := splitOnDot rest
        (c :: p.1, p.2)

/-- Strict nonnegative decimal-number parse (`Python float()`-like on the
well-formed inputs relevant here; anything with a second dot or a
non-digit is rejected). -/
def parseDecimal (cs : List Char) : Option ℚ :=
  let p := splitOnDot cs
  match p.2 with
  | none => (natOfDigits p.1).map (fun n => (n : ℚ))
  | some frac =>
      match natOfDigits p.1, natOfDigits frac with
      | some i, some f => some ((i : ℚ) + (f : ℚ) / (10 : ℚ) ^ frac.length)
      | _, _ => none

/-- Embedding of `AMI430._get_ramp_rate`: split the `RAMP:RATE:FIELD:1?` reply on
commas and parse the first field as a number. -/
def get_ramp_rate (reply : List Char) : Option ℚ :=
  parseDecimal (reply.takeWhile (fun c => c != ','))

/-- Embedding of `AMI430._set_ramp_rate`: the command written is
`CONF:RAMP:RATE:FIELD 1,` followed by the formatted rate and, with no
separator, the formatted field rating
(`'CONF:RAMP:RATE:FIELD 1,{}{}'.format(rate, self._field_rating)`). -/
def set_ramp_rate_cmd (rateText ratingText : List Char) : List Char :=
  ('C' :: 'O' :: 'N' :: 'F' :: ':' :: 'R' :: 'A' :: 'M' :: 'P' :: ':' ::
   'R' :: 'A' :: 'T' :: 'E' :: ':' :: 'F' :: 'I' :: 'E' :: 'L' :: 'D' ::
   ' ' :: '1' :: ',' :: []) ++ rateText ++ ratingText

/-- What stands in the rate position of the written command (everything
after `1,`): the concatenation of the two formatted numbers. -/
def ramp_rate_payload (rateText ratingText : List Char) : List Char :=
  rateText ++ ratingText

/-- C9 evaluation at the failing input: with rate `0.5` and field rating
`1.0`, the rate field of the written command is the character run
`0.51.0`, which is not a decimal number at all — its first comma-field
does not parse back to `0.5` (it does not parse as a number), whereas the
rate text alone does parse to `1/2`, and a comma-separated field pair
`0.5,1.0` would round-trip exactly.  The encode and decode are therefore
not mutually inverse as written. -/
theorem ramp_rate_roundtrip_broken :
    ramp_rate_payload ['0', '.', '5'] ['1', '.', '0']
      = ['0', '.', '5', '1', '.', '0']
    ∧ get_ramp_rate ['0', '.', '5', '1', '.', '0'] = none
    ∧ parseDecimal ['0', '.', '5'] = some (1/2)
    ∧ get_ramp_rate ['0', '.', '5', ',', '1', '.', '0'] = some (1/2)
    ∧ set_ramp_rate_cmd ['0', '.', '5'] ['1', '.', '0']
      = ('C' :: 'O' :: 'N' :: 'F' :: ':' :: 'R' :: 'A' :: 'M' :: 'P' :: ':' ::
         'R' :: 'A' :: 'T' :: 'E' :: ':' :: 'F' :: 'I' :: 'E' :: 'L' :: 'D' ::
         ' ' :: '1' :: ',' :: '0' :: '.' :: '5' :: '1' :: '.' :: '0' :: []) := by
  refine ⟨rfl, by decide, ?_, ?_, rfl⟩
  · simp +decide [parseDecimal, splitOnDot, natOfDigits]
    norm_num
  · simp +decide [get_ramp_rate, parseDecimal, splitOnDot, natOfDigits, List.takeWhile]
    norm_num

end AMI430
